import Mathlib

/-!
Shallow embedding of the restaurant/menu ingestion pipeline
(`yelp_scraper.py`): data model, price parsing, menu-URL slug
construction, menu-page extraction, batched directory search,
persistence, and the per-business orchestration loop, together with
theorems settling the specification claims.
-/

namespace NommScraper

/-! ## Price parsing (`clean_price`) -/

/-- Characters kept by `clean_price`: decimal digits and the decimal point
(the regex `[^\d.]` removes everything else). -/
def isPriceChar (c : Char) : Bool := c.isDigit || c == '.'

/-- Numeric value of a run of decimal digit characters, most significant first. -/
def digitsVal (l : List Char) : Nat := l.foldl (fun a c => a * 10 + (c.toNat - 48)) 0

/-- Python `float(...)` conversion restricted to strings made of digits and
dots (the alphabet `clean_price` can produce): conversion succeeds exactly
when there is at most one dot and at least one digit, and yields
`intpart + fracpart / 10 ^ length fracpart`. -/
def floatOfCleaned (l : List Char) : Option ℚ :=
  if l.count '.' ≤ 1 ∧ l.any Char.isDigit = true then
    some ((digitsVal (l.takeWhile (fun c => c != '.')) : ℚ)
      + (digitsVal ((l.dropWhile (fun c => c != '.')).drop 1) : ℚ)
        / (10 : ℚ) ^ ((l.dropWhile (fun c => c != '.')).drop 1).length)
  else none

/-- `clean_price`: empty input gives `none`; otherwise strip every character
that is not a digit or decimal point; an empty remainder gives `none`;
otherwise attempt float conversion (`ValueError` gives `none`). -/
def clean_price (price_str : String) : Option ℚ :=
  if price_str = "" then none
  else if price_str.toList.filter isPriceChar = [] then none
  else floatOfCleaned (price_str.toList.filter isPriceChar)

/-! ## Data model -/

/-- The `Restaurant` dataclass. -/
structure Restaurant where
  name : String
  rating : Option ℚ
  review_count : Option Nat
  price_range : Option String
  yelp_id : String
  website : Option String
  address : Option String
  phone : Option String
  cuisine_type : Option String
deriving DecidableEq

/-- One entry of the `categories` array of a directory business record.
JSON objects may lack the `title` key, hence the `Option`. -/
structure CategoryData where
  title : Option String
deriving DecidableEq

/-- The `location` sub-object of a directory business record. -/
structure LocationData where
  display_address : Option (List String)
deriving DecidableEq

/-- A directory business record (a JSON dictionary): every field may be
absent. -/
structure BusinessData where
  id : Option String
  name : Option String
  rating : Option ℚ
  review_count : Option Nat
  price : Option String
  url : Option String
  phone : Option String
  location : Option LocationData
  categories : Option (List CategoryData)
deriving DecidableEq

/-- Python `dict.update`: a field present in the detail record overrides the
summary field. -/
def updateBusiness (b d : BusinessData) : BusinessData where
  id := d.id <|> b.id
  name := d.name <|> b.name
  rating := d.rating <|> b.rating
  review_count := d.review_count <|> b.review_count
  price := d.price <|> b.price
  url := d.url <|> b.url
  phone := d.phone <|> b.phone
  location := d.location <|> b.location
  categories := d.categories <|> b.categories

/-- The list comprehension `[cat[ ... ] for cat in categories]` over the
`title` field: raises `KeyError` at the first category lacking a title. -/
def titlesOf : List CategoryData → Except String (List String)
  | [] => Except.ok []
  | c :: cs =>
    match c.title with
    | some t => (titlesOf cs).map (fun ts => t :: ts)
    | none => Except.error "KeyError: title"

/-- The address handling of `convert_to_restaurant`: a present, non-empty
`display_address` list is joined with `", "`; anything else (missing
location, missing key, empty list — all falsy in Python) gives no address. -/
def addressOf (b : BusinessData) : Option String :=
  match b.location with
  | some loc =>
    match loc.display_address with
    | some l => if l.isEmpty then none else some (String.intercalate ", " l)
    | none => none
  | none => none

/-- The cuisine handling of `convert_to_restaurant`: a present, non-empty
category list has its titles joined with `", "` (raising at a category
without a title); a missing or empty list gives no cuisine. -/
def cuisineOf (b : BusinessData) : Except String (Option String) :=
  match b.categories with
  | some cats =>
    if cats.isEmpty then Except.ok none
    else (titlesOf cats).map (fun ts => some (String.intercalate ", " ts))
  | none => Except.ok none

/-- The `Restaurant` built from a record once the cuisine string is known:
a missing name defaults to `"Unknown"`, a missing identifier to `""`. -/
def restaurantOf (b : BusinessData) (cz : Option String) : Restaurant where
  name := b.name.getD "Unknown"
  rating := b.rating
  review_count := b.review_count
  price_range := b.price
  yelp_id := b.id.getD ""
  website := b.url
  address := addressOf b
  phone := b.phone
  cuisine_type := cz

/-- `convert_to_restaurant`: builds a `Restaurant` from a business record.
Accessing the title of a category is an unchecked dictionary access, so the
conversion can raise. -/
def convert_to_restaurant (b : BusinessData) : Except String Restaurant :=
  match cuisineOf b with
  | Except.error e => Except.error e
  | Except.ok cz => Except.ok (restaurantOf b cz)

/-! ## Menu URL construction (`construct_menu_url`) -/

/-- Characters the slug transform keeps: the lower-case letters and digits
matched by the regex class `[a-z0-9]`. -/
def isSlugChar (c : Char) : Bool :=
  (97 ≤ c.toNat && c.toNat ≤ 122) || (48 ≤ c.toNat && c.toNat ≤ 57)

/-- The regex substitution replacing every maximal run of characters outside
`[a-z0-9]` by a single hyphen, as a one-bit automaton: the flag records
whether we are inside such a run (a hyphen was already emitted for it). -/
def collapseRuns : Bool → List Char → List Char
  | _, [] => []
  | inRun, c :: cs =>
    if isSlugChar c then c :: collapseRuns false cs
    else if inRun then collapseRuns true cs
    else '-' :: collapseRuns true cs

/-- The regex substitution replacing every run of hyphens by a single
hyphen, with the same one-bit-automaton shape. -/
def collapseHyphens : Bool → List Char → List Char
  | _, [] => []
  | inRun, c :: cs =>
    if c == '-' then
      if inRun then collapseHyphens true cs
      else '-' :: collapseHyphens true cs
    else c :: collapseHyphens false cs

/-- Python `strip` with argument `-`: drop leading and trailing hyphens. -/
def stripEdgeHyphens (l : List Char) : List Char :=
  ((l.dropWhile (fun c => c == '-')).reverse.dropWhile (fun c => c == '-')).reverse

/-- The name-slug transform of `construct_menu_url`: lower-case, replace
runs of characters outside `[a-z0-9]` by one hyphen, collapse hyphen runs,
strip edge hyphens. -/
def slugTransform (s : List Char) : List Char :=
  stripEdgeHyphens (collapseHyphens false (collapseRuns false (s.map Char.toLower)))

/-- Substring test used to model the Python `in` operator on strings. -/
def leadsWith : List Char → List Char → Bool
  | [], _ => true
  | _ :: _, [] => false
  | a :: as, b :: bs => a == b && leadsWith as bs

/-- `occursIn pat l` holds when `pat` occurs contiguously inside `l`. -/
def occursIn (pat : List Char) : List Char → Bool
  | [] => leadsWith pat []
  | c :: cs => leadsWith pat (c :: cs) || occursIn pat cs

/-- Python `str.strip()`: drop leading and trailing whitespace. -/
def stripSpaces (l : List Char) : List Char :=
  ((l.dropWhile Char.isWhitespace).reverse.dropWhile Char.isWhitespace).reverse

/-- The `if`/`elif` chain testing one address part against the known
sub-localities; when none matches, the current location is kept. -/
def cityOfPart (part : List Char) (cur : String) : String :=
  if occursIn "san ramon".toList part then "san-ramon"
  else if occursIn "dublin".toList part then "dublin"
  else if occursIn "pleasanton".toList part then "pleasanton"
  else if occursIn "livermore".toList part then "livermore"
  else if occursIn "castro valley".toList part then "castro-valley"
  else if occursIn "hayward".toList part then "hayward"
  else cur

/-- The location-slug scan of `construct_menu_url`: default `san-ramon`;
when an address is present, lower-case it, split on commas, strip each
part, and run the `if`/`elif` chain over every part in order. -/
def scanAddress (address : Option String) : String :=
  match address with
  | none => "san-ramon"
  | some a =>
    ((a.toList.map Char.toLower).splitOn ',').foldl
      (fun cur part => cityOfPart (stripSpaces part) cur) "san-ramon"

/-- `construct_menu_url`: `https://www.yelp.com/menu/{name-slug}-{location}`. -/
def construct_menu_url (r : Restaurant) : String :=
  "https://www.yelp.com/menu/" ++ String.mk (slugTransform r.name.toList)
    ++ "-" ++ scanAddress r.address

/-! ## Menu extraction (`scrape_menu_from_yelp`) -/

/-- A scraped menu item: the dictionary `{name, description, price}` built
by the extractor. -/
structure MenuItem where
  name : String
  description : String
  price : String
deriving DecidableEq

/-- An item container of the parsed document, modelled as the association
from field selectors to the stripped text of the first matching element;
a selector absent from the list matches no element. -/
def Container : Type := List (String × String)

instance : DecidableEq Container := by
  unfold Container
  infer_instance

/-- `item.select_one(sel)` followed by `get_text(strip=True)`: the text of
the first element the selector matches, when one exists. -/
def selectOne (c : Container) (sel : String) : Option String :=
  (c.find? (fun p => p.1 == sel)).map (fun p => p.2)

/-- A fetched page, modelled as the association from container selectors to
the list of item containers that selector matches. -/
def Page : Type := List (String × List Container)

/-- `soup.select(sel)` on a page. -/
def pageSelect (p : Page) (sel : String) : List Container :=
  ((p.find? (fun q => q.1 == sel)).map (fun q => q.2)).getD []

/-- The ordered container selectors (`selectors_to_try`). -/
def selectorsToTry : List String :=
  ["div.menu-item", "[data-testid=menu-item]", ".menu-item-details", ".menuItem",
    ".biz-menu-item"]

/-- The ordered name selectors. -/
def nameSelectors : List String :=
  ["h4", ".menu-item-name", ".item-name", "h3", "strong"]

/-- The ordered description selectors. -/
def descSelectors : List String :=
  [".menu-item-details-description", ".menu-item-description", ".item-description", "p"]

/-- The ordered price selectors. -/
def priceSelectors : List String :=
  [".menu-item-price-amount", ".menu-item-price", ".item-price", ".price"]

/-- The `for`/`break` loop over field selectors: stop at the FIRST selector
that matches an element, whatever its text, and keep the empty string when
no selector matches an element. -/
def extractField (c : Container) : List String → String
  | [] => ""
  | s :: rest =>
    match selectOne c s with
    | some t => t
    | none => extractField c rest

/-- Matching the regex `\$[\d,]+\.?\d*` at the head of the text: a dollar
sign, one or more digits or commas, an optional dot, then more digits. -/
def matchCurrencyAt : List Char → Option (List Char)
  | [] => none
  | c :: rest =>
    if c == '$' then
      if (rest.takeWhile (fun d => d.isDigit || d == ',')).isEmpty then none
      else
        some (c :: rest.takeWhile (fun d => d.isDigit || d == ',') ++
          (match rest.dropWhile (fun d => d.isDigit || d == ',') with
            | '.' :: r3 => '.' :: r3.takeWhile Char.isDigit
            | _ => []))
    else none

/-- `re.search` for the currency pattern: the leftmost match. -/
def findCurrency : List Char → Option (List Char)
  | [] => none
  | c :: cs =>
    match matchCurrencyAt (c :: cs) with
    | some m => some m
    | none => findCurrency cs

/-- The currency-pattern filter applied to the text of a price element: the
matched portion, or the empty string when the pattern does not occur. -/
def currencyFilter (t : String) : String :=
  match findCurrency t.toList with
  | some m => String.mk m
  | none => ""

/-- The price-selector loop: stop at the FIRST selector that matches an
element; its text is then filtered through the currency pattern (which may
leave the price empty even though later selectors match). -/
def extractPrice (c : Container) : List String → String
  | [] => ""
  | s :: rest =>
    match selectOne c s with
    | some t => currencyFilter t
    | none => extractPrice c rest

/-- Per-container item processing: extract the three fields, then keep the
item only when the name is non-empty and the description or the price is
non-empty. -/
def processMenuItem (c : Container) : Option MenuItem :=
  if extractField c nameSelectors ≠ "" ∧
      (extractField c descSelectors ≠ "" ∨ extractPrice c priceSelectors ≠ "") then
    some
      { name := extractField c nameSelectors
        description := extractField c descSelectors
        price := extractPrice c priceSelectors }
  else none

/-- The `for`/`break` loop over container selectors: the first selector
matching at least one container wins; when none matches, no containers. -/
def tryFirstSelector (p : Page) : List String → List Container
  | [] => []
  | s :: rest =>
    if (pageSelect p s).isEmpty then tryFirstSelector p rest else pageSelect p s

/-- `scrape_menu_from_yelp`: a failed fetch (any request exception) yields
the empty list; so does a page on which no container selector matches; on a
match, each container is processed and failing containers are dropped. -/
def scrape_menu_from_yelp (fetched : Option Page) : List MenuItem :=
  match fetched with
  | none => []
  | some p => (tryFirstSelector p selectorsToTry).filterMap processMenuItem

/-- Modelled from the spec (refinement comparison only): the field-selector
loop as the claim words it, stopping at the first selector whose match
yields a NON-EMPTY value. -/
def extractFieldSpec (c : Container) : List String → String
  | [] => ""
  | s :: rest =>
    match selectOne c s with
    | some t => if t ≠ "" then t else extractFieldSpec c rest
    | none => extractFieldSpec c rest

/-- Modelled from the spec (refinement comparison only): the price loop as
the claim words it, stopping at the first selector whose currency-filtered
match is non-empty. -/
def extractPriceSpec (c : Container) : List String → String
  | [] => ""
  | s :: rest =>
    match selectOne c s with
    | some t => if currencyFilter t ≠ "" then currencyFilter t else extractPriceSpec c rest
    | none => extractPriceSpec c rest

/-- Modelled from the spec (refinement comparison only): per-container item
processing under the first-non-empty-selector reading of the claim. -/
def processMenuItemSpec (c : Container) : Option MenuItem :=
  if extractFieldSpec c nameSelectors ≠ "" ∧
      (extractFieldSpec c descSelectors ≠ "" ∨ extractPriceSpec c priceSelectors ≠ "") then
    some
      { name := extractFieldSpec c nameSelectors
        description := extractFieldSpec c descSelectors
        price := extractPriceSpec c priceSelectors }
  else none

/-! ## Menu resolution (`get_menu_data`) -/

/-- The synthetic menu dictionary built in `get_menu_data`. -/
structure MenuData where
  name : String
  description : String
  menu_type : String
  display_order : Nat
deriving DecidableEq

/-- The one menu record built for a restaurant with extractable dishes. -/
def syntheticMenu (r : Restaurant) : MenuData where
  name := r.name ++ " Menu"
  description := "Main menu for " ++ r.name
  menu_type := "main"
  display_order := 0

/-- `get_menu_data`: construct the menu URL, scrape it; zero scraped items
give `none` (the skip signal); otherwise one synthetic menu paired with the
scraped dishes. -/
def get_menu_data (fetch : String → Option Page) (r : Restaurant) :
    Option (List MenuData × List MenuItem) :=
  if (scrape_menu_from_yelp (fetch (construct_menu_url r))).isEmpty then none
  else some ([syntheticMenu r], scrape_menu_from_yelp (fetch (construct_menu_url r)))

/-! ## Persistence (`save_to_database`) -/

/-- A row of the `restaurant` table. -/
structure RestaurantRow where
  id : Nat
  fields : Restaurant
deriving DecidableEq

/-- A row of the `menu` table. -/
structure MenuRow where
  id : Nat
  restaurant_id : Nat
  fields : MenuData
deriving DecidableEq

/-- A row of the `dish` table. -/
structure DishRow where
  id : Nat
  menu_id : Nat
  name : String
  description : String
  price : Option ℚ
  display_order : Nat
deriving DecidableEq

/-- The relational store: three append-only tables and the next serial id. -/
structure Db where
  restaurants : List RestaurantRow
  menus : List MenuRow
  dishes : List DishRow
  nextId : Nat
deriving DecidableEq

/-- The store before any run. -/
def emptyDb : Db := { restaurants := [], menus := [], dishes := [], nextId := 1 }

/-- The store after inserting a fresh restaurant row. -/
def dbWithRestaurant (db : Db) (r : Restaurant) : Db :=
  { db with
    restaurants := db.restaurants ++ [{ id := db.nextId, fields := r }]
    nextId := db.nextId + 1 }

/-- The restaurant upsert: select by `yelp_id`; a hit resolves to the
id of the existing row without any write; a miss inserts a fresh row. -/
def upsertRestaurant (db : Db) (r : Restaurant) : Nat × Db :=
  match db.restaurants.find? (fun row => row.fields.yelp_id == r.yelp_id) with
  | some row => (row.id, db)
  | none => (db.nextId, dbWithRestaurant db r)

/-- The dish row built for one scraped item. -/
def dishRowFor (db : Db) (menu_id : Nat) (d : MenuItem) : DishRow where
  id := db.nextId
  menu_id := menu_id
  name := d.name
  description := d.description
  price := clean_price d.price
  display_order := 0

/-- The dish-insert loop of `save_to_database`. `fail` is the environment
oracle saying which insert raises; a raise propagates out of the loop
(`true` in the result), leaving the dishes already inserted in place and
the rest uninserted. -/
def insertDishesGo (fail : DishRow → Bool) (menu_id : Nat) :
    List MenuItem → Db → Db × Bool
  | [], db => (db, false)
  | d :: ds, db =>
    if fail (dishRowFor db menu_id d) then (db, true)
    else
      insertDishesGo fail menu_id ds
        { db with dishes := db.dishes ++ [dishRowFor db menu_id d], nextId := db.nextId + 1 }

/-- The store after inserting one menu row for restaurant `rid`. -/
def dbWithMenu (db : Db) (rid : Nat) (m : MenuData) : Db :=
  { db with
    menus := db.menus ++ [{ id := db.nextId, restaurant_id := rid, fields := m }]
    nextId := db.nextId + 1 }

/-- The menu-insert loop of `save_to_database`: insert the menu row, then
all dishes under it; an exception from a dish insert propagates, stopping
the remaining menus as well. -/
def insertMenusGo (fail : DishRow → Bool) (restaurant_id : Nat) (dishes : List MenuItem) :
    List MenuData → Db → Db × Bool
  | [], db => (db, false)
  | m :: ms, db =>
    match insertDishesGo fail db.nextId dishes (dbWithMenu db restaurant_id m) with
    | (db2, true) => (db2, true)
    | (db2, false) => insertMenusGo fail restaurant_id dishes ms db2

/-- `save_to_database`: upsert the restaurant, then insert menus and dishes;
the enclosing `try`/`except` catches any insert exception and merely logs
it, so the function always returns (with whatever rows were written). -/
def save_to_database (fail : DishRow → Bool) (db : Db) (r : Restaurant)
    (menus : List MenuData) (dishes : List MenuItem) : Db :=
  ((insertMenusGo fail (upsertRestaurant db r).1 dishes menus (upsertRestaurant db r).2)).1

/-- The restaurant rows carrying a given external identifier. -/
def restRowsFor (db : Db) (y : String) : List RestaurantRow :=
  db.restaurants.filter (fun row => row.fields.yelp_id == y)

/-! ## Batched directory search (`search_restaurants_batch`) -/

/-- A page request issued to the directory API: the offset, the requested
count, and how many businesses had been collected when it was issued. -/
structure PageRequest where
  offset : Nat
  limit : Int
  already : Nat
deriving DecidableEq

/-- The page request the loop issues for batch number `bn` once `k`
businesses are collected under ceiling `total_limit`. -/
def mkRequest (total_limit : Nat) (bn k : Nat) : PageRequest where
  offset := bn * 50
  limit := min 50 ((total_limit : Int) - (k : Int))
  already := k

/-- The paginated search loop. `api offset limit` is the environment
oracle: `none` models a failed page request (logged, loop continues), and
`some bs` a page of results. The loop stops early on an empty page or once
the remaining allowance is zero. -/
def search_go (api : Nat → Int → Option (List BusinessData)) (total_limit : Nat) :
    List Nat → List BusinessData → List PageRequest → List PageRequest × List BusinessData
  | [], acc, reqs => (reqs, acc)
  | bn :: rest, acc, reqs =>
    if min 50 ((total_limit : Int) - (acc.length : Int)) ≤ 0 then (reqs, acc)
    else
      match api (bn * 50) (min 50 ((total_limit : Int) - (acc.length : Int))) with
      | none =>
        search_go api total_limit rest acc (reqs ++ [mkRequest total_limit bn acc.length])
      | some [] => (reqs ++ [mkRequest total_limit bn acc.length], acc)
      | some (b :: bs) =>
        search_go api total_limit rest (acc ++ b :: bs)
          (reqs ++ [mkRequest total_limit bn acc.length])

/-- `search_restaurants_batch`: ceiling-divide the requested total by the
provider page maximum of 50 to get the batch count, then run the loop.
Returns the issued page requests and the collected businesses. -/
def search_restaurants_batch (api : Nat → Int → Option (List BusinessData))
    (total_limit : Nat) : List PageRequest × List BusinessData :=
  search_go api total_limit (List.range ((total_limit + 49) / 50)) [] []

/-! ## Orchestration (`collect_san_ramon_data`) -/

/-- The environment of the pipeline: the detail endpoint (`None` on error, as
`get_restaurant_details` catches its own exceptions), the menu-page fetch
(`none` models a request exception), and the dish-insert failure oracle. -/
structure Env where
  details : String → Option BusinessData
  fetch : String → Option Page
  dishFail : DishRow → Bool

/-- The head of the per-business loop body: the unchecked dictionary
accesses for the name and id keys, the best-effort detail merge, and the
conversion; each unchecked access or conversion error propagates. -/
def resolveRestaurant (env : Env) (b : BusinessData) : Except String Restaurant :=
  match b.name with
  | none => Except.error "KeyError: name"
  | some _ =>
    match b.id with
    | none => Except.error "KeyError: id"
    | some bid =>
      convert_to_restaurant
        (match env.details bid with
          | some d => updateBusiness b d
          | none => b)

/-- The business record after the detail merge (when it has an id). -/
def mergedBusiness (env : Env) (b : BusinessData) : BusinessData :=
  match b.id with
  | some bid =>
    (match env.details bid with
      | some d => updateBusiness b d
      | none => b)
  | none => b

/-- Every category of the record carries a title, so the unchecked
title accesses in the conversion cannot raise. -/
def categoriesTitled (b : BusinessData) : Bool :=
  match b.categories with
  | some cats => cats.all (fun c => c.title.isSome)
  | none => true

/-- A record of one `save_to_database` invocation. -/
abbrev SaveCall : Type := Restaurant × List MenuData × List MenuItem

/-- One iteration of the per-business loop: resolve the restaurant, try the
menu; no items means no persistence call (`false` flags a skip); items mean
exactly one persistence call. Exceptions from the loop-body head propagate. -/
def processBusiness (env : Env) (db : Db) (b : BusinessData) :
    Except String (Db × List SaveCall × Bool) :=
  match resolveRestaurant env b with
  | Except.error e => Except.error e
  | Except.ok r =>
    match get_menu_data env.fetch r with
    | some (menus, dishes) =>
      Except.ok (save_to_database env.dishFail db r menus dishes, [(r, menus, dishes)], true)
    | none => Except.ok (db, [], false)

/-- The observable state of a run: the store, the persistence calls made,
and the processed/skipped counters. -/
structure RunState where
  db : Db
  calls : List SaveCall
  processed : Nat
  skipped : Nat
deriving DecidableEq

/-- The per-business loop of `collect_san_ramon_data`. There is no
`try`/`except` around the body, so a body exception aborts the whole batch
(`Except.error`, carrying the state reached); otherwise the counters
advance and the loop continues. -/
def collectLoop (env : Env) : List BusinessData → RunState → Except RunState RunState
  | [], st => Except.ok st
  | b :: rest, st =>
    match processBusiness env st.db b with
    | Except.error _ => Except.error st
    | Except.ok (db2, calls2, flag) =>
      collectLoop env rest
        { db := db2
          calls := st.calls ++ calls2
          processed := st.processed + (if flag then 1 else 0)
          skipped := st.skipped + (if flag then 0 else 1) }

/-! ## Cleanliness predicates for the slug transform -/

/-- No two adjacent hyphens. -/
def noDoubleHyphen : List Char → Bool
  | [] => true
  | [_] => true
  | a :: b :: rest => !(a == '-' && b == '-') && noDoubleHyphen (b :: rest)

/-- Neither the first nor the last character is a hyphen. -/
def noEdgeHyphen (l : List Char) : Bool :=
  (l.head?.all (fun c => !(c == '-'))) && (l.getLast?.all (fun c => !(c == '-')))

/-- An already-clean slug: lower-case letters, digits and single interior
hyphens only. -/
def isCleanSlug (l : List Char) : Bool :=
  l.all (fun c => isSlugChar c || c == '-') && noDoubleHyphen l && noEdgeHyphen l

/-- Two adjacent characters are not both hyphens (the relational form of
`noDoubleHyphen`). -/
def hyphenApart : Char → Char → Prop := fun a b => ¬(a = '-' ∧ b = '-')

/-! ## Concrete data for witnesses and counterexamples -/

/-- The apostrophe character. -/
def apos : Char := Char.ofNat 39

/-- The restaurant of the slug example: the name is Joe-apostrophe-s
followed by Caf, e-acute and an exclamation mark; the address is in
Dublin, CA. -/
def rJoes : Restaurant where
  name := String.mk ("Joe".toList ++ [apos] ++ "s Café!".toList)
  rating := some 4
  review_count := some 10
  price_range := some "$$"
  yelp_id := "joes-cafe-dublin"
  website := none
  address := some "123 Main St, Dublin, CA 94568"
  phone := none
  cuisine_type := none

/-- A fully populated, well-formed business record. -/
def bGood : BusinessData where
  id := some "good-1"
  name := some "Test Diner"
  rating := some 4
  review_count := some 12
  price := some "$"
  url := some "https://example.invalid/biz/good-1"
  phone := some "555-0100"
  location := some { display_address := some ["1 Main St", "San Ramon, CA"] }
  categories := some [{ title := some "Burgers" }]

/-- A business record lacking the `id` key: the unchecked id access in
the loop body raises on it. -/
def bMissingId : BusinessData where
  id := none
  name := some "Ghost Diner"
  rating := none
  review_count := none
  price := none
  url := none
  phone := none
  location := none
  categories := none

/-- A business record whose single category lacks the `title` key. -/
def bUntitledCategory : BusinessData where
  id := some "untitled-1"
  name := some "Untitled Categories"
  rating := none
  review_count := none
  price := none
  url := none
  phone := none
  location := none
  categories := some [{ title := none }]

/-- An environment in which every remote interaction comes back empty. -/
def envEmpty : Env where
  details := fun _ => none
  fetch := fun _ => none
  dishFail := fun _ => false

/-- A page on which no selector matches anything. -/
def emptyPage : Page := []

/-- An item container giving one complete menu item. -/
def cBurger : Container :=
  [("h4", "Burger"), (".menu-item-description", "A classic burger"),
    (".menu-item-price-amount", "$9.99")]

/-- A page on which the first container selector matches one container. -/
def pageOneItem : Page := [("div.menu-item", [cBurger])]

/-- An environment whose menu fetch always yields `pageOneItem`. -/
def envOneItem : Env where
  details := fun _ => none
  fetch := fun _ => some pageOneItem
  dishFail := fun _ => false

/-- The container of the C9 counterexample: `h4` matches an element whose
stripped text is empty, while `.menu-item-name` and `.price` match
elements with real content. -/
def cEmptyName : Container :=
  [("h4", ""), (".menu-item-name", "Burger"), (".price", "$9.99")]

/-- Menu and dishes for the dish-insert counterexample. -/
def mMain : MenuData where
  name := "Main Menu"
  description := "Main"
  menu_type := "main"
  display_order := 0

/-- First dish of the C4 counterexample (its insert will fail). -/
def dishA : MenuItem := { name := "Dish A", description := "first", price := "$1.00" }

/-- Second dish of the C4 counterexample (a sibling of `dishA`). -/
def dishB : MenuItem := { name := "Dish B", description := "second", price := "$2.00" }

/-- The restaurant `convert_to_restaurant` builds from `bGood` (no detail
record available). -/
def rTest : Restaurant where
  name := "Test Diner"
  rating := some 4
  review_count := some 12
  price_range := some "$"
  yelp_id := "good-1"
  website := some "https://example.invalid/biz/good-1"
  address := some "1 Main St, San Ramon, CA"
  phone := some "555-0100"
  cuisine_type := some "Burgers"

/-- The dish-insert failure oracle of the C4 counterexample: the insert of
`Dish A` raises, any other insert succeeds. -/
def failDishA : DishRow → Bool := fun row => row.name == "Dish A"

/-- A directory API oracle answering every page with one business. -/
def apiOne : Nat → Int → Option (List BusinessData) := fun _ _ => some [bGood]

/-- The initial run state. -/
def st0 : RunState := { db := emptyDb, calls := [], processed := 0, skipped := 0 }

/-- The menu item scraped from `pageOneItem`. -/
def burgerItem : MenuItem :=
  { name := "Burger", description := "A classic burger", price := "$9.99" }

/-- A second identifier-less business record, distinct from `bMissingId`. -/
def bAnonymous : BusinessData :=
  { bMissingId with name := some "Other Diner" }

/-! ## Run-outcome projections (used to state claim theorems) -/

/-- Whether the run completed without an uncaught exception. -/
def runOk : Except RunState RunState → Bool
  | Except.ok _ => true
  | Except.error _ => false

/-- Whether one loop-body iteration completed without raising. -/
def pbOk : Except String (Db × List SaveCall × Bool) → Bool
  | Except.ok _ => true
  | Except.error _ => false

/-- The persistence calls of the state a run ended in. -/
def callsOf : Except RunState RunState → List SaveCall
  | Except.ok st => st.calls
  | Except.error st => st.calls

/-- The processed counter of the state a run ended in. -/
def processedOf : Except RunState RunState → Nat
  | Except.ok st => st.processed
  | Except.error st => st.processed

/-- The skipped counter of the state a run ended in. -/
def skippedOf : Except RunState RunState → Nat
  | Except.ok st => st.skipped
  | Except.error st => st.skipped

/-- Whether the conversion succeeded. -/
def conversionOk (b : BusinessData) : Bool :=
  match convert_to_restaurant b with
  | Except.ok _ => true
  | Except.error _ => false

/-- The name of the converted record, when conversion succeeded. -/
def convertedName (b : BusinessData) : Option String :=
  match convert_to_restaurant b with
  | Except.ok r => some r.name
  | Except.error _ => none

/-- The deduplication key (`yelp_id`) of the converted record, when conversion
succeeded. -/
def convertedKey (b : BusinessData) : Option String :=
  match convert_to_restaurant b with
  | Except.ok r => some r.yelp_id
  | Except.error _ => none

/-- A page request within the claimed bounds for ceiling `T`: positive,
at most the provider maximum of 50, and no larger than what remains of
the allowance at issue time. -/
def goodRequest (T : Nat) (q : PageRequest) : Bool :=
  decide (q.limit ≤ 50) && decide (0 < q.limit)
    && decide ((q.already : Int) + q.limit ≤ (T : Int))

/-! # Theorems -/

/-! ## Claim C6: the price parser -/

/-- Claim C6: `clean_price` strips every character that is not a digit or
decimal point and converts the remainder, returning `none` on empty input
or conversion failure; `$12.50` parses to `12.50`, `Market Price` and the
empty string to `none`, and `$1,234` to `1234`. -/
theorem clean_price_spec_examples :
    clean_price "$12.50" = some (25 / 2 : ℚ)
    ∧ clean_price "Market Price" = none
    ∧ clean_price "" = none
    ∧ clean_price "$1,234" = some (1234 : ℚ) := by
  refine ⟨?_, by decide, by decide, ?_⟩
  · unfold clean_price
    rw [if_neg (by decide), if_neg (by decide)]
    have h1 : "$12.50".toList.filter isPriceChar = ['1', '2', '.', '5', '0'] := by decide
    rw [h1]
    unfold floatOfCleaned
    rw [if_pos (by decide)]
    have h2 : digitsVal (List.takeWhile (fun c => c != '.') ['1', '2', '.', '5', '0']) = 12 := by
      decide
    have h3 : (List.dropWhile (fun c => c != '.') ['1', '2', '.', '5', '0']).drop 1
        = ['5', '0'] := by decide
    rw [h2, h3]
    have h4 : digitsVal ['5', '0'] = 50 := by decide
    rw [h4]
    norm_num
  · unfold clean_price
    rw [if_neg (by decide), if_neg (by decide)]
    have h1 : "$1,234".toList.filter isPriceChar = ['1', '2', '3', '4'] := by decide
    rw [h1]
    unfold floatOfCleaned
    rw [if_pos (by decide)]
    have h2 : digitsVal (List.takeWhile (fun c => c != '.') ['1', '2', '3', '4']) = 1234 := by
      decide
    have h3 : (List.dropWhile (fun c => c != '.') ['1', '2', '3', '4']).drop 1
        = ([] : List Char) := by decide
    rw [h2, h3]
    have h4 : digitsVal [] = 0 := by decide
    rw [h4]
    norm_num

/-! ## Claim C8: extraction never raises -/

theorem tryFirstSelector_eq_nil (p : Page) :
    ∀ sels, (∀ s ∈ sels, pageSelect p s = []) → tryFirstSelector p sels = [] := by
  intro sels
  induction sels with
  | nil => intro _; rfl
  | cons s rest ih =>
    intro h
    have hs : pageSelect p s = [] := h s (List.mem_cons_self s rest)
    simp only [tryFirstSelector, hs, List.isEmpty_nil, if_true]
    exact ih (fun t ht => h t (List.mem_cons_of_mem s ht))

/-- Claim C8: menu extraction never raises: a fetch error yields the empty
sequence, and so does a successfully fetched page on which no selector in
the fixed ordered list matches any item container. -/
theorem scrape_menu_total (p : Page)
    (h : ∀ s ∈ selectorsToTry, pageSelect p s = []) :
    scrape_menu_from_yelp none = [] ∧ scrape_menu_from_yelp (some p) = [] := by
  refine ⟨rfl, ?_⟩
  simp only [scrape_menu_from_yelp, tryFirstSelector_eq_nil p selectorsToTry h,
    List.filterMap_nil]

/-- Witness for C8 at the empty page. -/
theorem scrape_menu_total_witness :
    scrape_menu_from_yelp none = [] ∧ scrape_menu_from_yelp (some emptyPage) = [] :=
  scrape_menu_total emptyPage (by decide)

/-! ## Claim C9: per-field selector loops -/

/-- Counterexample to claim C9: on a container whose first name selector
(`h4`) matches an element with empty text while a later one matches
`Burger`, the extractor stops at the empty match and drops the item; under
the first-NON-EMPTY-match reading of the claim the item would be kept with name
`Burger`. -/
theorem field_loop_counterexample :
    processMenuItem cEmptyName = none
    ∧ processMenuItemSpec cEmptyName
        = some { name := "Burger", description := "", price := "$9.99" } := by
  constructor <;> decide

theorem extractField_eq_find (c : Container) :
    ∀ sels, extractField c sels
      = (((sels.find? (fun s => (selectOne c s).isSome)).bind (selectOne c)).getD "") := by
  intro sels
  induction sels with
  | nil => rfl
  | cons s rest ih =>
    cases ht : selectOne c s with
    | some t =>
      have hp : ((fun x => (selectOne c x).isSome) s) = true := by
        show (selectOne c s).isSome = true
        rw [ht]
        rfl
      rw [List.find?_cons_of_pos rest hp]
      show extractField c (s :: rest) = (selectOne c s).getD ""
      unfold extractField
      rw [ht]
      rfl
    | none =>
      have hp : ¬ ((fun x => (selectOne c x).isSome) s = true) := by
        show ¬ ((selectOne c s).isSome = true)
        rw [ht]
        exact Bool.false_ne_true
      rw [List.find?_cons_of_neg rest hp]
      show extractField c (s :: rest) = _
      unfold extractField
      rw [ht]
      exact ih

theorem extractPrice_eq_find (c : Container) :
    ∀ sels, extractPrice c sels
      = ((((sels.find? (fun s => (selectOne c s).isSome)).bind
            (selectOne c)).map currencyFilter).getD "") := by
  intro sels
  induction sels with
  | nil => rfl
  | cons s rest ih =>
    cases ht : selectOne c s with
    | some t =>
      have hp : ((fun x => (selectOne c x).isSome) s) = true := by
        show (selectOne c s).isSome = true
        rw [ht]
        rfl
      rw [List.find?_cons_of_pos rest hp]
      show extractPrice c (s :: rest) = (((selectOne c s).map currencyFilter).getD "")
      unfold extractPrice
      rw [ht]
      rfl
    | none =>
      have hp : ¬ ((fun x => (selectOne c x).isSome) s = true) := by
        show ¬ ((selectOne c s).isSome = true)
        rw [ht]
        exact Bool.false_ne_true
      rw [List.find?_cons_of_neg rest hp]
      show extractPrice c (s :: rest) = _
      unfold extractPrice
      rw [ht]
      exact ih

/-- Claim C9 amended: for each field the loop stops at the FIRST selector
that matches an element, whatever its text (for the price, the matched
text is then filtered through the currency pattern, possibly to the empty
string), and an item is kept exactly when the resulting name is non-empty
and the description or the price is non-empty. -/
theorem field_loops_first_element_match (c : Container) :
    extractField c nameSelectors
      = (((nameSelectors.find? (fun s => (selectOne c s).isSome)).bind (selectOne c)).getD "")
    ∧ extractField c descSelectors
      = (((descSelectors.find? (fun s => (selectOne c s).isSome)).bind (selectOne c)).getD "")
    ∧ extractPrice c priceSelectors
      = ((((priceSelectors.find? (fun s => (selectOne c s).isSome)).bind
            (selectOne c)).map currencyFilter).getD "")
    ∧ ∀ it, processMenuItem c = some it ↔
        (extractField c nameSelectors ≠ ""
          ∧ (extractField c descSelectors ≠ "" ∨ extractPrice c priceSelectors ≠ "")
          ∧ it = { name := extractField c nameSelectors,
                   description := extractField c descSelectors,
                   price := extractPrice c priceSelectors }) := by
  refine ⟨extractField_eq_find c nameSelectors, extractField_eq_find c descSelectors,
    extractPrice_eq_find c priceSelectors, ?_⟩
  intro it
  unfold processMenuItem
  by_cases h : extractField c nameSelectors ≠ ""
      ∧ (extractField c descSelectors ≠ "" ∨ extractPrice c priceSelectors ≠ "")
  · rw [if_pos h]
    constructor
    · intro he
      exact ⟨h.1, h.2, (Option.some_inj.mp he).symm⟩
    · intro he
      rw [he.2.2]
  · rw [if_neg h]
    constructor
    · intro he; cases he
    · intro he; exact absurd ⟨he.1, he.2.1⟩ h

/-- Witness for C9 amended at a concrete container. -/
theorem field_loops_witness :
    extractField cBurger nameSelectors
      = (((nameSelectors.find? (fun s => (selectOne cBurger s).isSome)).bind
          (selectOne cBurger)).getD "") :=
  (field_loops_first_element_match cBurger).1

/-! ## Claim C10: conversion defaults -/

/-- Counterexample to claim C10: conversion is not total — a business
record whose category list contains a category without a `title` key makes
`convert_to_restaurant` raise `KeyError`. -/
theorem conversion_not_total_counterexample :
    convert_to_restaurant bUntitledCategory = Except.error "KeyError: title" := by
  rfl

theorem titlesOf_ok (cats : List CategoryData) (h : ∀ c ∈ cats, c.title.isSome = true) :
    ∃ ts, titlesOf cats = Except.ok ts := by
  induction cats with
  | nil => exact ⟨[], rfl⟩
  | cons c cs ih =>
    obtain ⟨t, ht⟩ := Option.isSome_iff_exists.mp (h c (List.mem_cons_self c cs))
    obtain ⟨ts, hts⟩ := ih (fun d hd => h d (List.mem_cons_of_mem c hd))
    refine ⟨t :: ts, ?_⟩
    unfold titlesOf
    rw [ht, hts]
    rfl

theorem cuisineOf_ok (b : BusinessData) (h : categoriesTitled b = true) :
    ∃ cz, cuisineOf b = Except.ok cz := by
  unfold cuisineOf
  unfold categoriesTitled at h
  split
  next cats heq =>
    rw [heq] at h
    by_cases he : cats.isEmpty
    · rw [if_pos he]; exact ⟨none, rfl⟩
    · obtain ⟨ts, hts⟩ := titlesOf_ok cats (List.all_eq_true.mp h)
      rw [if_neg he, hts]
      exact ⟨some (String.intercalate ", " ts), rfl⟩
  next heq => exact ⟨none, rfl⟩

theorem convert_ok_of_titled (b : BusinessData) (h : categoriesTitled b = true) :
    ∃ cz, convert_to_restaurant b = Except.ok (restaurantOf b cz) := by
  obtain ⟨cz, hcz⟩ := cuisineOf_ok b h
  refine ⟨cz, ?_⟩
  unfold convert_to_restaurant
  rw [hcz]

/-- Claim C10 amended: conversion substitutes defaults for missing
top-level fields — a missing name becomes `Unknown` and a missing
identifier becomes the empty string, so any two identifier-less records
share the deduplication key `""` — and it is total on every record whose
categories (when present) each carry a title; a category without a title
makes it raise instead. -/
theorem conversion_defaults (b c : BusinessData)
    (hb : categoriesTitled b = true) (hc : categoriesTitled c = true) :
    conversionOk b = true
    ∧ (b.name = none → convertedName b = some "Unknown")
    ∧ (b.id = none → convertedKey b = some "")
    ∧ (b.id = none → c.id = none → convertedKey b = convertedKey c) := by
  obtain ⟨cz, hcz⟩ := convert_ok_of_titled b hb
  obtain ⟨cz2, hcz2⟩ := convert_ok_of_titled c hc
  have okb : conversionOk b = true := by
    unfold conversionOk
    rw [hcz]
  have keyb : b.id = none → convertedKey b = some "" := by
    intro hid
    unfold convertedKey
    rw [hcz]
    show some (b.id.getD "") = some ""
    rw [hid]
    rfl
  have keyc : c.id = none → convertedKey c = some "" := by
    intro hid
    unfold convertedKey
    rw [hcz2]
    show some (c.id.getD "") = some ""
    rw [hid]
    rfl
  refine ⟨okb, ?_, keyb, fun hb2 hc2 => by rw [keyb hb2, keyc hc2]⟩
  intro hname
  unfold convertedName
  rw [hcz]
  show some (b.name.getD "Unknown") = some "Unknown"
  rw [hname]
  rfl

/-- Witness for C10 amended, on two concrete identifier-less records. -/
theorem conversion_defaults_witness :
    conversionOk bMissingId = true
    ∧ convertedKey bMissingId = some ""
    ∧ convertedKey bMissingId = convertedKey bAnonymous := by
  have h := conversion_defaults bMissingId bAnonymous (by decide) (by decide)
  exact ⟨h.1, h.2.2.1 rfl, h.2.2.2 rfl rfl⟩

/-! ## Claim C3: per-business failure isolation -/

/-- Counterexample to claim C3: the loop body has no exception handler, so
a business record lacking the `id` key aborts the whole batch before the
remaining businesses are processed — even though the second business here
is perfectly processable on its own (second conjunct). -/
theorem batch_abort_counterexample :
    collectLoop envEmpty [bMissingId, bGood] st0 = Except.error st0
    ∧ processBusiness envEmpty emptyDb bGood = Except.ok (emptyDb, [], false) := by
  constructor
  · rfl
  · rfl

theorem processBusiness_ok (env : Env) (db : Db) (b : BusinessData)
    (hn : b.name ≠ none) (hi : b.id ≠ none)
    (ht : categoriesTitled (mergedBusiness env b) = true) :
    pbOk (processBusiness env db b) = true := by
  obtain ⟨nm, hnm⟩ := Option.ne_none_iff_exists'.mp hn
  obtain ⟨bid, hbid⟩ := Option.ne_none_iff_exists'.mp hi
  have hm : mergedBusiness env b
      = (match env.details bid with | some d => updateBusiness b d | none => b) := by
    unfold mergedBusiness
    rw [hbid]
  obtain ⟨cz, hcz⟩ := convert_ok_of_titled _ ht
  rw [hm] at hcz
  have hres : resolveRestaurant env b
      = Except.ok (restaurantOf
          (match env.details bid with | some d => updateBusiness b d | none => b) cz) := by
    unfold resolveRestaurant
    rw [hnm, hbid]
    exact hcz
  unfold processBusiness
  rw [hres]
  split
  next heq => exact absurd heq (by simp)
  next r heq => split <;> rfl

/-- Claim C3 amended: the sub-steps with their own handlers (detail fetch,
menu fetch and extraction, persistence) never abort the batch, but the
loop body itself is unprotected: on well-formed records — `name` and `id`
keys present, every category of the merged record titled — the batch runs
to completion, with every business counted as processed or skipped; an
ill-formed record aborts the batch (see the counterexample). -/
theorem batch_completes_on_wellformed (env : Env) (bs : List BusinessData) (st : RunState)
    (h : ∀ b ∈ bs, b.name ≠ none ∧ b.id ≠ none
      ∧ categoriesTitled (mergedBusiness env b) = true) :
    runOk (collectLoop env bs st) = true
    ∧ processedOf (collectLoop env bs st) + skippedOf (collectLoop env bs st)
        = st.processed + st.skipped + bs.length := by
  induction bs generalizing st with
  | nil => exact ⟨rfl, by simp [collectLoop, processedOf, skippedOf]⟩
  | cons b rest ih =>
    have hb := h b (List.mem_cons_self b rest)
    have hok := processBusiness_ok env st.db b hb.1 hb.2.1 hb.2.2
    have hrest := fun st2 => ih st2 (fun x hx => h x (List.mem_cons_of_mem b hx))
    cases hpb : processBusiness env st.db b with
    | error e =>
      rw [hpb] at hok
      exact absurd hok (by simp [pbOk])
    | ok out =>
      obtain ⟨db2, calls2, flag⟩ := out
      unfold collectLoop
      simp only [hpb]
      have hone := hrest
        { db := db2
          calls := st.calls ++ calls2
          processed := st.processed + (if flag then 1 else 0)
          skipped := st.skipped + (if flag then 0 else 1) }
      refine ⟨hone.1, ?_⟩
      rw [hone.2]
      cases flag <;> simp <;> omega

/-- Witness for C3 amended on a one-business well-formed batch. -/
theorem batch_completes_witness :
    runOk (collectLoop envEmpty [bGood] st0) = true
    ∧ processedOf (collectLoop envEmpty [bGood] st0)
        + skippedOf (collectLoop envEmpty [bGood] st0) = 0 + 0 + 1 :=
  batch_completes_on_wellformed envEmpty [bGood] st0 (by decide)

/-! ## Claim C2: skip policy -/

/-- Claim C2: when menu extraction yields zero items, the ingestor performs
no database write for that business — the store and the persistence-call
list are untouched — and increments the skipped counter, not the processed
one; when extraction yields at least one item, the persistence layer is
called exactly once, with exactly one synthetic menu record. -/
theorem skip_policy (env : Env) (st : RunState) (b : BusinessData) (r : Restaurant)
    (hr : resolveRestaurant env b = Except.ok r) :
    (scrape_menu_from_yelp (env.fetch (construct_menu_url r)) = [] →
      collectLoop env [b] st = Except.ok
        { db := st.db, calls := st.calls, processed := st.processed,
          skipped := st.skipped + 1 })
    ∧ (scrape_menu_from_yelp (env.fetch (construct_menu_url r)) ≠ [] →
      runOk (collectLoop env [b] st) = true
      ∧ callsOf (collectLoop env [b] st)
          = st.calls ++ [(r, [syntheticMenu r],
              scrape_menu_from_yelp (env.fetch (construct_menu_url r)))]
      ∧ processedOf (collectLoop env [b] st) = st.processed + 1
      ∧ skippedOf (collectLoop env [b] st) = st.skipped) := by
  constructor
  · intro hs
    have hmd : get_menu_data env.fetch r = none := by
      unfold get_menu_data
      rw [if_pos (by rw [hs]; rfl)]
    unfold collectLoop processBusiness
    simp only [hr, hmd]
    unfold collectLoop
    simp

  · intro hs
    have hmd : get_menu_data env.fetch r
        = some ([syntheticMenu r], scrape_menu_from_yelp (env.fetch (construct_menu_url r))) := by
      unfold get_menu_data
      rw [if_neg (by simpa using hs)]
    unfold collectLoop processBusiness
    simp only [hr, hmd]
    unfold collectLoop
    simp [runOk, callsOf, processedOf, skippedOf]

/-- Witness for C2, exercising both the zero-item branch (fetch failure)
and the one-item branch (a page with one extractable item). -/
theorem skip_policy_witness :
    collectLoop envEmpty [bGood] st0 = Except.ok
      { db := emptyDb, calls := [], processed := 0, skipped := 1 }
    ∧ callsOf (collectLoop envOneItem [bGood] st0)
        = [(rTest, [syntheticMenu rTest], [burgerItem])]
    ∧ processedOf (collectLoop envOneItem [bGood] st0) = 1
    ∧ skippedOf (collectLoop envOneItem [bGood] st0) = 0 := by
  have h1 := (skip_policy envEmpty st0 bGood rTest rfl).1 rfl
  have hscr : scrape_menu_from_yelp (envOneItem.fetch (construct_menu_url rTest))
      = [burgerItem] := by rfl
  have h2 := (skip_policy envOneItem st0 bGood rTest rfl).2 (by rw [hscr]; decide)
  refine ⟨h1, ?_, ?_, ?_⟩
  · rw [h2.2.1, hscr]
    rfl
  · exact h2.2.2.1
  · exact h2.2.2.2

/-! ## Claim C4: dish-insert failure handling -/

/-- Counterexample to claim C4: the dish loop sits inside the one
`try`/`except` of `save_to_database`, so a failing insert of `Dish A`
aborts the loop and its sibling `Dish B` is never inserted (first
conjunct), although without the failure both dishes are inserted (second
conjunct). -/
theorem dish_failure_counterexample :
    (save_to_database failDishA emptyDb rTest [mMain] [dishA, dishB]).dishes = []
    ∧ (save_to_database (fun _ => false) emptyDb rTest [mMain] [dishA, dishB]).dishes.map
        DishRow.name = ["Dish A", "Dish B"] := by
  constructor
  · rfl
  · rfl

theorem insertDishesGo_names (fail : DishRow → Bool) (mid : Nat) :
    ∀ (ds : List MenuItem) (db : Db), ∃ k, k ≤ ds.length
      ∧ ((insertDishesGo fail mid ds db).1).dishes.map DishRow.name
        = db.dishes.map DishRow.name ++ ((ds.take k).map MenuItem.name) := by
  intro ds
  induction ds with
  | nil =>
    intro db
    exact ⟨0, Nat.le_refl 0, by simp [insertDishesGo]⟩
  | cons d rest ih =>
    intro db
    unfold insertDishesGo
    by_cases hf : fail (dishRowFor db mid d)
    · rw [if_pos hf]
      exact ⟨0, Nat.zero_le _, by simp⟩
    · rw [if_neg hf]
      obtain ⟨k, hk, heq⟩ := ih
        { db with dishes := db.dishes ++ [dishRowFor db mid d], nextId := db.nextId + 1 }
      refine ⟨k + 1, Nat.succ_le_succ hk, ?_⟩
      rw [heq]
      show (db.dishes ++ [dishRowFor db mid d]).map DishRow.name
          ++ ((rest.take k).map MenuItem.name) = _
      simp [dishRowFor, List.take_succ_cons]

theorem insertDishesGo_nofail (fail : DishRow → Bool) (hfail : ∀ row, fail row = false)
    (mid : Nat) :
    ∀ (ds : List MenuItem) (db : Db),
      ((insertDishesGo fail mid ds db).1).dishes.map DishRow.name
        = db.dishes.map DishRow.name ++ ds.map MenuItem.name := by
  intro ds
  induction ds with
  | nil =>
    intro db
    simp [insertDishesGo]
  | cons d rest ih =>
    intro db
    unfold insertDishesGo
    rw [if_neg (by rw [hfail]; exact Bool.false_ne_true)]
    rw [ih { db with dishes := db.dishes ++ [dishRowFor db mid d], nextId := db.nextId + 1 }]
    show (db.dishes ++ [dishRowFor db mid d]).map DishRow.name ++ rest.map MenuItem.name = _
    simp [dishRowFor]

theorem insertMenusGo_single (fail : DishRow → Bool) (rid : Nat) (ds : List MenuItem)
    (m : MenuData) (db : Db) :
    (insertMenusGo fail rid ds [m] db).1
      = (insertDishesGo fail db.nextId ds (dbWithMenu db rid m)).1 := by
  unfold insertMenusGo
  cases hd : insertDishesGo fail db.nextId ds (dbWithMenu db rid m) with
  | mk db2 aborted =>
    cases aborted
    · rfl
    · rfl

theorem upsertRestaurant_dishes (db : Db) (r : Restaurant) :
    ((upsertRestaurant db r).2).dishes = db.dishes := by
  unfold upsertRestaurant
  cases db.restaurants.find? (fun row => row.fields.yelp_id == r.yelp_id) <;> rfl

/-- Claim C4 amended: a dish-insert failure is caught (and logged) at the
level of the whole `save_to_database` call, not per dish: the inserted
dishes always form a PREFIX of the dish list — siblings before the first
failing dish are kept, siblings after it are never inserted — and when no
insert fails the whole list is inserted. -/
theorem dish_inserts_stop_at_failure (fail : DishRow → Bool) (db : Db) (r : Restaurant)
    (m : MenuData) (dishes : List MenuItem) :
    (∃ k, k ≤ dishes.length
      ∧ (save_to_database fail db r [m] dishes).dishes.map DishRow.name
        = db.dishes.map DishRow.name ++ ((dishes.take k).map MenuItem.name))
    ∧ ((∀ row, fail row = false) →
      (save_to_database fail db r [m] dishes).dishes.map DishRow.name
        = db.dishes.map DishRow.name ++ dishes.map MenuItem.name) := by
  have hbase : (dbWithMenu (upsertRestaurant db r).2 (upsertRestaurant db r).1 m).dishes.map
      DishRow.name = db.dishes.map DishRow.name := by
    show ((upsertRestaurant db r).2).dishes.map DishRow.name = _
    rw [upsertRestaurant_dishes]
  constructor
  · obtain ⟨k, hk, heq⟩ := insertDishesGo_names fail ((upsertRestaurant db r).2).nextId dishes
      (dbWithMenu (upsertRestaurant db r).2 (upsertRestaurant db r).1 m)
    refine ⟨k, hk, ?_⟩
    unfold save_to_database
    rw [insertMenusGo_single, heq, hbase]
  · intro hfail
    unfold save_to_database
    rw [insertMenusGo_single,
      insertDishesGo_nofail fail hfail ((upsertRestaurant db r).2).nextId dishes
        (dbWithMenu (upsertRestaurant db r).2 (upsertRestaurant db r).1 m),
      hbase]

/-- Witness for C4 amended: with no failing insert, both dishes land. -/
theorem dish_inserts_witness :
    (save_to_database (fun _ => false) emptyDb rTest [mMain] [dishA, dishB]).dishes.map
        DishRow.name
      = emptyDb.dishes.map DishRow.name ++ [dishA, dishB].map MenuItem.name :=
  (dish_inserts_stop_at_failure (fun _ => false) emptyDb rTest mMain [dishA, dishB]).2
    (fun _ => rfl)

/-! ## Claim C1: restaurant upsert idempotence -/

theorem insertDishesGo_restaurants (fail : DishRow → Bool) (mid : Nat) :
    ∀ (ds : List MenuItem) (db : Db),
      ((insertDishesGo fail mid ds db).1).restaurants = db.restaurants := by
  intro ds
  induction ds with
  | nil => intro db; rfl
  | cons d rest ih =>
    intro db
    unfold insertDishesGo
    by_cases hf : fail (dishRowFor db mid d)
    · rw [if_pos hf]
    · rw [if_neg hf]
      exact ih { db with dishes := db.dishes ++ [dishRowFor db mid d], nextId := db.nextId + 1 }

theorem insertMenusGo_restaurants (fail : DishRow → Bool) (rid : Nat) (dishes : List MenuItem) :
    ∀ (ms : List MenuData) (db : Db),
      ((insertMenusGo fail rid dishes ms db).1).restaurants = db.restaurants := by
  intro ms
  induction ms with
  | nil => intro db; rfl
  | cons m rest ih =>
    intro db
    unfold insertMenusGo
    cases hd : insertDishesGo fail db.nextId dishes (dbWithMenu db rid m) with
    | mk db2 aborted =>
      have h2 : db2.restaurants = db.restaurants := by
        have h3 := insertDishesGo_restaurants fail db.nextId dishes (dbWithMenu db rid m)
        rw [hd] at h3
        exact h3
      cases aborted
      · show ((insertMenusGo fail rid dishes rest db2).1).restaurants = db.restaurants
        rw [ih db2, h2]
      · exact h2

theorem save_to_database_restaurants (fail : DishRow → Bool) (db : Db) (r : Restaurant)
    (menus : List MenuData) (dishes : List MenuItem) :
    (save_to_database fail db r menus dishes).restaurants
      = ((upsertRestaurant db r).2).restaurants := by
  unfold save_to_database
  exact insertMenusGo_restaurants fail (upsertRestaurant db r).1 dishes menus
    (upsertRestaurant db r).2

theorem upsertRestaurant_found {db : Db} {r : Restaurant} {row : RestaurantRow}
    (h : db.restaurants.find? (fun row => row.fields.yelp_id == r.yelp_id) = some row) :
    upsertRestaurant db r = (row.id, db) := by
  unfold upsertRestaurant
  rw [h]

theorem upsertRestaurant_notfound {db : Db} {r : Restaurant}
    (h : db.restaurants.find? (fun row => row.fields.yelp_id == r.yelp_id) = none) :
    upsertRestaurant db r = (db.nextId, dbWithRestaurant db r) := by
  unfold upsertRestaurant
  rw [h]

theorem save_twice_count (db2 : Db) (r : Restaurant) (fail : DishRow → Bool)
    (menus : List MenuData) (dishes : List MenuItem) :
    (restRowsFor
        (save_to_database fail (save_to_database fail db2 r menus dishes) r menus dishes)
        r.yelp_id).length
      = max (restRowsFor db2 r.yelp_id).length 1 := by
  cases hf : db2.restaurants.find? (fun row => row.fields.yelp_id == r.yelp_id) with
  | some row =>
    have h1 : (save_to_database fail db2 r menus dishes).restaurants = db2.restaurants := by
      rw [save_to_database_restaurants, upsertRestaurant_found hf]
    have hf2 : (save_to_database fail db2 r menus dishes).restaurants.find?
        (fun row => row.fields.yelp_id == r.yelp_id) = some row := by
      rw [h1, hf]
    have h2 : (save_to_database fail (save_to_database fail db2 r menus dishes)
        r menus dishes).restaurants = db2.restaurants := by
      rw [save_to_database_restaurants, upsertRestaurant_found hf2, h1]
    unfold restRowsFor
    rw [h2]
    have hpr := List.find?_some hf
    have hmem : row ∈ db2.restaurants.filter (fun row => row.fields.yelp_id == r.yelp_id) :=
      List.mem_filter.mpr ⟨List.mem_of_find?_eq_some hf, hpr⟩
    have hk : 0 < (db2.restaurants.filter (fun row => row.fields.yelp_id == r.yelp_id)).length :=
      List.length_pos.mpr (List.ne_nil_of_mem hmem)
    omega
  | none =>
    have h1 : (save_to_database fail db2 r menus dishes).restaurants
        = db2.restaurants ++ [{ id := db2.nextId, fields := r }] := by
      rw [save_to_database_restaurants, upsertRestaurant_notfound hf]
      rfl
    have hnew : (fun row : RestaurantRow => row.fields.yelp_id == r.yelp_id)
        { id := db2.nextId, fields := r } = true := by
      show (r.yelp_id == r.yelp_id) = true
      exact beq_self_eq_true r.yelp_id
    have hzero : db2.restaurants.filter (fun row => row.fields.yelp_id == r.yelp_id) = [] := by
      rw [List.filter_eq_nil_iff]
      exact List.find?_eq_none.mp hf
    have hf2 : ((save_to_database fail db2 r menus dishes).restaurants.find?
        (fun row => row.fields.yelp_id == r.yelp_id)).isSome := by
      rw [h1, List.find?_isSome]
      exact ⟨{ id := db2.nextId, fields := r },
        List.mem_append_right _ (List.mem_singleton.mpr rfl), hnew⟩
    obtain ⟨row2, hrow2⟩ := Option.isSome_iff_exists.mp hf2
    have h2 : (save_to_database fail (save_to_database fail db2 r menus dishes)
        r menus dishes).restaurants
        = db2.restaurants ++ [{ id := db2.nextId, fields := r }] := by
      rw [save_to_database_restaurants, upsertRestaurant_found hrow2, h1]
    unfold restRowsFor
    rw [h2, List.filter_append, hzero]
    simp [hnew]

/-- Claim C1: for a restaurant whose external identifier already has a row,
the persistence step inserts nothing — the restaurant table is
byte-for-byte unchanged — and resolves to the id of the existing row; and
running the persistence twice over the same record leaves exactly one
restaurant row for its identifier (one more than zero when it was absent,
exactly the old count when present). -/
theorem upsert_resolves_existing (db db2 : Db) (r : Restaurant) (fail : DishRow → Bool)
    (menus : List MenuData) (dishes : List MenuItem)
    (h : ∃ row ∈ db.restaurants, row.fields.yelp_id = r.yelp_id) :
    (upsertRestaurant db r).2 = db
    ∧ (∃ row, db.restaurants.find? (fun row => row.fields.yelp_id == r.yelp_id) = some row
        ∧ (upsertRestaurant db r).1 = row.id)
    ∧ (save_to_database fail db r menus dishes).restaurants = db.restaurants
    ∧ (restRowsFor
          (save_to_database fail (save_to_database fail db2 r menus dishes) r menus dishes)
          r.yelp_id).length
        = max (restRowsFor db2 r.yelp_id).length 1 := by
  have hsome : (db.restaurants.find? (fun row => row.fields.yelp_id == r.yelp_id)).isSome := by
    rw [List.find?_isSome]
    obtain ⟨row, hmem, hy⟩ := h
    exact ⟨row, hmem, by rw [hy]; exact beq_self_eq_true r.yelp_id⟩
  obtain ⟨row, hrow⟩ := Option.isSome_iff_exists.mp hsome
  have hup := upsertRestaurant_found hrow
  refine ⟨by rw [hup], ⟨row, hrow, by rw [hup]⟩, ?_, save_twice_count db2 r fail menus dishes⟩
  rw [save_to_database_restaurants, hup]

/-- Witness for C1 on a store already holding the row of the restaurant. -/
theorem upsert_resolves_existing_witness :
    (upsertRestaurant
        { restaurants := [{ id := 7, fields := rTest }], menus := [], dishes := [], nextId := 8 }
        rTest).2
      = { restaurants := [{ id := 7, fields := rTest }], menus := [], dishes := [], nextId := 8 }
    ∧ (restRowsFor
          (save_to_database (fun _ => false)
            (save_to_database (fun _ => false) emptyDb rTest [mMain] [dishA])
            rTest [mMain] [dishA])
          rTest.yelp_id).length
        = max (restRowsFor emptyDb rTest.yelp_id).length 1 := by
  have h := upsert_resolves_existing
    { restaurants := [{ id := 7, fields := rTest }], menus := [], dishes := [], nextId := 8 }
    emptyDb rTest (fun _ => false) [mMain] [dishA]
    ⟨{ id := 7, fields := rTest }, List.mem_singleton.mpr rfl, rfl⟩
  exact ⟨h.1, h.2.2.2⟩

/-! ## Claim C5: search batch limits -/

theorem search_go_bounded (api : Nat → Int → Option (List BusinessData)) (T : Nat)
    (hapi : ∀ o l bs, 0 < l → api o l = some bs → (bs.length : Int) ≤ l) :
    ∀ (bns : List Nat) (acc : List BusinessData) (reqs : List PageRequest),
      acc.length ≤ T →
      reqs.all (goodRequest T) = true →
      (search_go api T bns acc reqs).2.length ≤ T
      ∧ ((search_go api T bns acc reqs).1).all (goodRequest T) = true := by
  intro bns
  induction bns with
  | nil =>
    intro acc reqs hacc hreqs
    exact ⟨hacc, hreqs⟩
  | cons bn rest ih =>
    intro acc reqs hacc hreqs
    unfold search_go
    by_cases hl : min 50 ((T : Int) - (acc.length : Int)) ≤ 0
    · rw [if_pos hl]
      exact ⟨hacc, hreqs⟩
    · rw [if_neg hl]
      push_neg at hl
      have hq : goodRequest T (mkRequest T bn acc.length) = true := by
        unfold goodRequest mkRequest
        have h50 := min_le_left (50 : Int) ((T : Int) - (acc.length : Int))
        have hrem := min_le_right (50 : Int) ((T : Int) - (acc.length : Int))
        simp only [Bool.and_eq_true, decide_eq_true_eq]
        refine ⟨⟨h50, hl⟩, ?_⟩
        omega
      have hreqs2 : (reqs ++ [mkRequest T bn acc.length]).all (goodRequest T) = true := by
        rw [List.all_append]
        simp only [hreqs, hq, List.all_cons, List.all_nil, Bool.and_true, Bool.and_self]
      cases hres : api (bn * 50) (min 50 ((T : Int) - (acc.length : Int))) with
      | none => exact ih acc (reqs ++ [mkRequest T bn acc.length]) hacc hreqs2
      | some bs =>
        cases bs with
        | nil => exact ⟨hacc, hreqs2⟩
        | cons b bs2 =>
          have hlen := hapi (bn * 50) (min 50 ((T : Int) - (acc.length : Int)))
            (b :: bs2) hl hres
          have hrem := min_le_right (50 : Int) ((T : Int) - (acc.length : Int))
          have hacc2 : (acc ++ b :: bs2).length ≤ T := by
            rw [List.length_append]
            omega
          exact ih (acc ++ b :: bs2) (reqs ++ [mkRequest T bn acc.length]) hacc2 hreqs2

/-- Claim C5: for every directory oracle honouring the requested page
limits and every `total_limit`, the batched search collects at most
`total_limit` businesses, and every page request it issues is positive, at
most the provider maximum of 50, and small enough that the businesses
already collected plus the requested count never exceed `total_limit`. -/
theorem search_respects_total_limit (api : Nat → Int → Option (List BusinessData))
    (total_limit : Nat)
    (hapi : ∀ o l bs, 0 < l → api o l = some bs → (bs.length : Int) ≤ l) :
    (search_restaurants_batch api total_limit).2.length ≤ total_limit
    ∧ ((search_restaurants_batch api total_limit).1).all (goodRequest total_limit) = true := by
  unfold search_restaurants_batch
  exact search_go_bounded api total_limit hapi (List.range ((total_limit + 49) / 50)) [] []
    (Nat.zero_le _) rfl

/-- Witness for C5 with a one-business-per-page oracle and ceiling 60. -/
theorem search_respects_total_limit_witness :
    (search_restaurants_batch apiOne 60).2.length ≤ 60
    ∧ ((search_restaurants_batch apiOne 60).1).all (goodRequest 60) = true := by
  refine search_respects_total_limit apiOne 60 ?_
  intro o l bs hl h
  have hbs : bs = [bGood] := by
    have h2 : some [bGood] = some bs := h
    exact (Option.some_inj.mp h2).symm
  rw [hbs]
  show ((1 : Nat) : Int) ≤ l
  omega

/-! ## Claim C7: the menu-URL slug transform -/

theorem noDoubleHyphen_iff : ∀ l : List Char,
    noDoubleHyphen l = true ↔ List.Chain' hyphenApart l := by
  intro l
  match l with
  | [] => simp [noDoubleHyphen, List.chain'_nil]
  | [a] => simp [noDoubleHyphen, List.chain'_singleton]
  | a :: b :: rest =>
    rw [List.chain'_cons, ← noDoubleHyphen_iff (b :: rest)]
    show (!(a == '-' && b == '-') && noDoubleHyphen (b :: rest)) = true ↔ _
    rw [Bool.and_eq_true, Bool.not_eq_eq_eq_not]
    constructor
    · rintro ⟨h1, h2⟩
      refine ⟨?_, h2⟩
      intro hand
      rw [hand.1, hand.2] at h1
      exact absurd h1 (by decide)
    · rintro ⟨h1, h2⟩
      refine ⟨?_, h2⟩
      cases hab : (a == '-' && b == '-') with
      | false => rfl
      | true =>
        rw [Bool.and_eq_true] at hab
        exact absurd ⟨eq_of_beq hab.1, eq_of_beq hab.2⟩ h1

theorem collapseRuns_mem : ∀ (l : List Char) (b : Bool) (c : Char),
    c ∈ collapseRuns b l → (isSlugChar c || c == '-') = true := by
  intro l
  induction l with
  | nil =>
    intro b c hc
    simp [collapseRuns] at hc
  | cons a t ih =>
    intro b c hc
    unfold collapseRuns at hc
    by_cases hs : isSlugChar a
    · rw [if_pos hs] at hc
      rcases List.mem_cons.mp hc with h | h
      · rw [h, hs]; rfl
      · exact ih false c h
    · rw [if_neg hs] at hc
      cases b with
      | true => exact ih true c hc
      | false =>
        rw [if_neg (by exact Bool.false_ne_true)] at hc
        rcases List.mem_cons.mp hc with h | h
        · rw [h]; rfl
        · exact ih true c h

theorem collapseHyphens_mem : ∀ (l : List Char) (b : Bool) (c : Char),
    c ∈ collapseHyphens b l → c ∈ l ∨ c = '-' := by
  intro l
  induction l with
  | nil =>
    intro b c hc
    simp [collapseHyphens] at hc
  | cons a t ih =>
    intro b c hc
    unfold collapseHyphens at hc
    by_cases hh : a == '-'
    · rw [if_pos hh] at hc
      cases b with
      | true =>
        rcases ih true c hc with h | h
        · exact Or.inl (List.mem_cons_of_mem a h)
        · exact Or.inr h
      | false =>
        rw [if_neg (by exact Bool.false_ne_true)] at hc
        rcases List.mem_cons.mp hc with h | h
        · exact Or.inr h
        · rcases ih true c h with h2 | h2
          · exact Or.inl (List.mem_cons_of_mem a h2)
          · exact Or.inr h2
    · rw [if_neg hh] at hc
      rcases List.mem_cons.mp hc with h | h
      · exact Or.inl (by rw [h]; exact List.mem_cons_self a t)
      · rcases ih false c h with h2 | h2
        · exact Or.inl (List.mem_cons_of_mem a h2)
        · exact Or.inr h2

theorem collapseHyphens_head_true : ∀ (l : List Char) (c : Char),
    (collapseHyphens true l).head? = some c → ¬ c = '-' := by
  intro l
  induction l with
  | nil =>
    intro c hc
    simp [collapseHyphens] at hc
  | cons a t ih =>
    intro c hc
    unfold collapseHyphens at hc
    cases hh : (a == '-') with
    | true =>
      rw [hh] at hc
      rw [if_pos rfl] at hc
      rw [if_pos rfl] at hc
      exact ih c hc
    | false =>
      rw [hh] at hc
      rw [if_neg Bool.false_ne_true] at hc
      have hac : a = c := by
        simpa using hc
      intro hcc
      rw [← hac] at hcc
      rw [hcc] at hh
      exact absurd hh (by decide)

theorem collapseHyphens_chain : ∀ (l : List Char) (b : Bool),
    List.Chain' hyphenApart (collapseHyphens b l) := by
  intro l
  induction l with
  | nil =>
    intro b
    show List.Chain' hyphenApart []
    exact List.chain'_nil
  | cons a t ih =>
    intro b
    unfold collapseHyphens
    by_cases hh : a == '-'
    · rw [if_pos hh]
      cases b with
      | true =>
        rw [if_pos rfl]
        exact ih true
      | false =>
        rw [if_neg Bool.false_ne_true]
        rw [List.chain'_cons']
        refine ⟨?_, ih true⟩
        intro y hy
        intro hand
        exact collapseHyphens_head_true t y hy hand.2
    · rw [if_neg hh]
      rw [List.chain'_cons']
      refine ⟨?_, ih false⟩
      intro y _
      intro hand
      rw [hand.1] at hh
      exact absurd (by rfl : ('-' == '-') = true) hh

theorem dropWhile_head_false (p : Char → Bool) :
    ∀ (l : List Char) (c : Char), ((l.dropWhile p).head? = some c) → p c = false := by
  intro l
  induction l with
  | nil =>
    intro c hc
    simp at hc
  | cons a t ih =>
    intro c hc
    rw [List.dropWhile_cons] at hc
    cases hpa : p a with
    | true =>
      rw [hpa] at hc
      rw [if_pos rfl] at hc
      exact ih c hc
    | false =>
      rw [hpa] at hc
      rw [if_neg Bool.false_ne_true] at hc
      have hac : a = c := by simpa using hc
      rw [← hac]
      exact hpa

theorem chain_dropWhile (p : Char → Bool) (l : List Char)
    (h : List.Chain' hyphenApart l) : List.Chain' hyphenApart (l.dropWhile p) := by
  rw [← @List.takeWhile_append_dropWhile _ p l] at h
  exact (List.chain'_append.mp h).2.1

theorem chain_reverse_of (l : List Char) (h : List.Chain' hyphenApart l) :
    List.Chain' hyphenApart l.reverse := by
  rw [List.chain'_reverse]
  exact h.imp (fun a b hab hba => hab ⟨hba.2, hba.1⟩)

theorem stripEdge_chain (l : List Char) (h : List.Chain' hyphenApart l) :
    List.Chain' hyphenApart (stripEdgeHyphens l) := by
  unfold stripEdgeHyphens
  exact chain_reverse_of _ (chain_dropWhile _ _ (chain_reverse_of _ (chain_dropWhile _ _ h)))

theorem stripEdge_mem (l : List Char) (c : Char) (hc : c ∈ stripEdgeHyphens l) : c ∈ l := by
  unfold stripEdgeHyphens at hc
  rw [List.mem_reverse] at hc
  have h2 := (List.dropWhile_sublist _).subset hc
  rw [List.mem_reverse] at h2
  exact (List.dropWhile_sublist _).subset h2

theorem stripEdge_noEdge (l : List Char) : noEdgeHyphen (stripEdgeHyphens l) = true := by
  unfold noEdgeHyphen stripEdgeHyphens
  rw [List.head?_reverse, List.getLast?_reverse, Bool.and_eq_true]
  constructor
  · cases hY : ((l.dropWhile (fun c => c == '-')).reverse.dropWhile
        (fun c => c == '-')).getLast? with
    | none => rfl
    | some c =>
      have h3 : (l.dropWhile (fun c => c == '-')).reverse.getLast? = some c := by
        conv =>
          lhs
          rw [← @List.takeWhile_append_dropWhile _ (fun c => c == '-')
            (l.dropWhile (fun c => c == '-')).reverse]
        rw [List.getLast?_append, hY]
        rfl
      rw [List.getLast?_reverse] at h3
      have h4 := dropWhile_head_false (fun c => c == '-') l c h3
      have h5 : (c == '-') = false := h4
      show (!(c == '-')) = true
      rw [h5]
      rfl
  · cases hY : ((l.dropWhile (fun c => c == '-')).reverse.dropWhile
        (fun c => c == '-')).head? with
    | none => rfl
    | some c =>
      have h4 := dropWhile_head_false (fun c => c == '-') _ c hY
      have h5 : (c == '-') = false := h4
      show (!(c == '-')) = true
      rw [h5]
      rfl

theorem slug_clean (s : List Char) : isCleanSlug (slugTransform s) = true := by
  unfold isCleanSlug
  rw [Bool.and_eq_true, Bool.and_eq_true]
  refine ⟨⟨?_, ?_⟩, ?_⟩
  · rw [List.all_eq_true]
    intro c hc
    have hc2 := stripEdge_mem _ c hc
    rcases collapseHyphens_mem _ _ _ hc2 with h3 | h3
    · exact collapseRuns_mem _ _ _ h3
    · rw [h3]
      rfl
  · rw [noDoubleHyphen_iff]
    exact stripEdge_chain _ (collapseHyphens_chain _ false)
  · exact stripEdge_noEdge _

theorem toLower_fix (c : Char) (h : (isSlugChar c || c == '-') = true) : c.toLower = c := by
  have hn : ¬(c.toNat ≥ 65 ∧ c.toNat ≤ 90) := by
    rw [Bool.or_eq_true] at h
    rcases h with hs | hh
    · unfold isSlugChar at hs
      simp only [Bool.or_eq_true, Bool.and_eq_true, decide_eq_true_eq] at hs
      omega
    · have hc := eq_of_beq hh
      subst hc
      decide
  show (if c.toNat ≥ 65 ∧ c.toNat ≤ 90 then Char.ofNat (c.toNat + 32) else c) = c
  rw [if_neg hn]

theorem map_toLower_id : ∀ l : List Char,
    (∀ c ∈ l, (isSlugChar c || c == '-') = true) → l.map Char.toLower = l := by
  intro l
  induction l with
  | nil => intro _; rfl
  | cons a t ih =>
    intro h
    rw [List.map_cons, toLower_fix a (h a (List.mem_cons_self a t)),
      ih (fun c hc => h c (List.mem_cons_of_mem a hc))]

theorem collapseRuns_id : ∀ l : List Char,
    (∀ c ∈ l, (isSlugChar c || c == '-') = true) →
    List.Chain' hyphenApart l →
    (collapseRuns false l = l
      ∧ ((l.head?.all (fun c => !(c == '-'))) = true → collapseRuns true l = l)) := by
  intro l
  induction l with
  | nil => intro _ _; exact ⟨rfl, fun _ => rfl⟩
  | cons a t ih =>
    intro hall hch
    have hcs := fun c hc => hall c (List.mem_cons_of_mem a hc)
    have hch2 := (List.chain'_cons'.mp hch).2
    have ihcs := ih hcs hch2
    have hor := hall a (List.mem_cons_self a t)
    rw [Bool.or_eq_true] at hor
    rcases hor with hs | hh
    · constructor
      · unfold collapseRuns
        rw [if_pos hs, ihcs.1]
      · intro _
        unfold collapseRuns
        rw [if_pos hs, ihcs.1]
    · have ha : a = '-' := eq_of_beq hh
      have hhead : (t.head?.all (fun c => !(c == '-'))) = true := by
        cases hht : t.head? with
        | none => rfl
        | some y =>
          have hjun := (List.chain'_cons'.mp hch).1 y hht
          have hy : ¬ y = '-' := fun hy2 => hjun ⟨ha, hy2⟩
          have hy3 : (y == '-') = false := by
            cases hyb : (y == '-') with
            | false => rfl
            | true => exact absurd (eq_of_beq hyb) hy
          show (!(y == '-')) = true
          rw [hy3]
          rfl
      constructor
      · unfold collapseRuns
        rw [if_neg (by rw [ha]; decide), if_neg Bool.false_ne_true, ihcs.2 hhead, ha]
      · intro hhd
        rw [ha] at hhd
        have hfalse : (false : Bool) = true := hhd
        exact absurd hfalse (by decide)

theorem collapseHyphens_id : ∀ l : List Char,
    List.Chain' hyphenApart l →
    (collapseHyphens false l = l
      ∧ ((l.head?.all (fun c => !(c == '-'))) = true → collapseHyphens true l = l)) := by
  intro l
  induction l with
  | nil => intro _; exact ⟨rfl, fun _ => rfl⟩
  | cons a t ih =>
    intro hch
    have hch2 := (List.chain'_cons'.mp hch).2
    have ihcs := ih hch2
    by_cases hh : (a == '-') = true
    · have ha : a = '-' := eq_of_beq hh
      have hhead : (t.head?.all (fun c => !(c == '-'))) = true := by
        cases hht : t.head? with
        | none => rfl
        | some y =>
          have hjun := (List.chain'_cons'.mp hch).1 y hht
          have hy : ¬ y = '-' := fun hy2 => hjun ⟨ha, hy2⟩
          have hy3 : (y == '-') = false := by
            cases hyb : (y == '-') with
            | false => rfl
            | true => exact absurd (eq_of_beq hyb) hy
          show (!(y == '-')) = true
          rw [hy3]
          rfl
      constructor
      · unfold collapseHyphens
        rw [if_pos hh, if_neg Bool.false_ne_true, ihcs.2 hhead, ha]
      · intro hhd
        rw [ha] at hhd
        have hfalse : (false : Bool) = true := hhd
        exact absurd hfalse (by decide)
    · constructor
      · unfold collapseHyphens
        rw [if_neg hh, ihcs.1]
      · intro _
        unfold collapseHyphens
        rw [if_neg hh, ihcs.1]

theorem dropWhile_id (p : Char → Bool) (l : List Char)
    (h : (l.head?.all (fun c => !(p c))) = true) : l.dropWhile p = l := by
  cases l with
  | nil => rfl
  | cons a t =>
    have hpa : p a = false := by
      have h2 : (!(p a)) = true := h
      cases hb : p a with
      | false => rfl
      | true => rw [hb] at h2; exact absurd h2 (by decide)
    rw [List.dropWhile_cons, hpa, if_neg Bool.false_ne_true]

theorem stripEdge_id (l : List Char) (h : noEdgeHyphen l = true) : stripEdgeHyphens l = l := by
  unfold noEdgeHyphen at h
  rw [Bool.and_eq_true] at h
  unfold stripEdgeHyphens
  rw [dropWhile_id _ l h.1]
  have h2 : (l.reverse.head?.all (fun c => !(c == '-'))) = true := by
    rw [List.head?_reverse]
    exact h.2
  rw [dropWhile_id _ l.reverse h2, List.reverse_reverse]

theorem slug_id (l : List Char) (h : isCleanSlug l = true) : slugTransform l = l := by
  unfold isCleanSlug at h
  rw [Bool.and_eq_true, Bool.and_eq_true] at h
  obtain ⟨⟨hall, hdh⟩, hedge⟩ := h
  have hall2 := List.all_eq_true.mp hall
  have hch := (noDoubleHyphen_iff l).mp hdh
  unfold slugTransform
  rw [map_toLower_id l hall2, (collapseRuns_id l hall2 hch).1, (collapseHyphens_id l hch).1]
  exact stripEdge_id l hedge

/-- Claim C7: the slug is derived by lower-casing, replacing every run of
non-alphanumeric characters with one hyphen and trimming edge hyphens, so
the example name (with its apostrophe and accent) and a Dublin, CA
address yield the URL ending in
`/menu/joe-s-caf-dublin`; the transform is idempotent, and in particular
an already-clean slug is returned unchanged. -/
theorem slug_transform_correct :
    construct_menu_url rJoes = "https://www.yelp.com/menu/joe-s-caf-dublin"
    ∧ (∀ s : List Char, slugTransform (slugTransform s) = slugTransform s)
    ∧ (∀ l : List Char, isCleanSlug l = true → slugTransform l = l) := by
  refine ⟨by decide, fun s => slug_id _ (slug_clean s), fun l hl => slug_id l hl⟩

/-- Witness for C7 at a concrete clean slug. -/
theorem slug_transform_witness :
    construct_menu_url rJoes = "https://www.yelp.com/menu/joe-s-caf-dublin"
    ∧ slugTransform ['j', 'o', 'e', '-', 's'] = ['j', 'o', 'e', '-', 's'] :=
  ⟨slug_transform_correct.1, slug_transform_correct.2.2 ['j', 'o', 'e', '-', 's'] (by decide)⟩

end NommScraper
